import Mathlib

/-!
Verification of the Pakajo extractor service (src/server.js).

The service downloads a remote document and returns extracted plain text.
This file embeds the request-handling pipeline of src/server.js:
filename/extension detection from the URL path (lines 88-91, 104-114),
content-type fallback (lines 119-122), the axios fetch configuration
(lines 94-100), upstream-error classification (lines 156-198), the PDF
page-concatenation loop (lines 44-55), the on-demand PDF-engine
initialization guard (lines 126-137) and the background start-up
initialization (line 231).

JS strings are modelled as Lean `String` / `List Char`; all string
operations used by the source are re-implemented by structural recursion
so that concrete witnesses evaluate by kernel reduction.
-/

namespace Pakajo

/-! ## Character classes (ASCII models of the JS operations) -/

/-- Model of the whitespace class removed by `String.prototype.trim`
(space, tab, LF, CR, VT, FF, NBSP, BOM, LS, PS). -/
def jsWhitespace (c : Char) : Bool :=
  c.toNat == 32 || c.toNat == 9 || c.toNat == 10 || c.toNat == 13 ||
  c.toNat == 11 || c.toNat == 12 || c.toNat == 160 || c.toNat == 65279 ||
  c.toNat == 8232 || c.toNat == 8233

/-- Characters kept by `ext.replace(/[^a-z0-9]/g, '')` (line 91). -/
def isLowerAlnum (c : Char) : Bool :=
  (97 ≤ c.toNat && c.toNat ≤ 122) || (48 ≤ c.toNat && c.toNat ≤ 57)

/-- ASCII model of `String.prototype.toLowerCase`. -/
def asciiLowerC (c : Char) : Char :=
  if 65 ≤ c.toNat ∧ c.toNat ≤ 90 then Char.ofNat (c.toNat + 32) else c

/-- Lowercase a character list (model of `toLowerCase`). -/
def toLowerL (l : List Char) : List Char := l.map asciiLowerC

/-- Line terminators that the JS regex dot `.` does not match. -/
def lineTerm (c : Char) : Bool :=
  c.toNat == 10 || c.toNat == 13 || c.toNat == 8232 || c.toNat == 8233

/-! ## List-level string primitives -/

/-- Model of `String.prototype.trim` on a character list: drop the
whitespace run at both ends. -/
def jsTrimL (l : List Char) : List Char :=
  ((l.dropWhile jsWhitespace).reverse.dropWhile jsWhitespace).reverse

/-- Model of `str.replace(/[\r\n]/g, '')` (line 89): remove every CR/LF. -/
def stripCRLF (l : List Char) : List Char :=
  l.filter (fun c => !(c == '\r' || c == '\n'))

/-- Model of the JS single-character `String.prototype.split`:
`"".split(c) = [""]`, separators produce empty pieces. -/
def splitOnCharL (c : Char) : List Char → List (List Char)
  | [] => [[]]
  | a :: t =>
    if a == c then [] :: splitOnCharL c t
    else
      match splitOnCharL c t with
      | [] => [[a]]
      | h :: t2 => (a :: h) :: t2

/-- Model of `list.startsWith(pat)`: `pat` is a leading run of `l`. -/
def startsWithL : List Char → List Char → Bool
  | _, [] => true
  | [], _ :: _ => false
  | a :: as, b :: bs => a == b && startsWithL as bs

/-- Model of `String.prototype.includes`: `pat` occurs contiguously in `l`. -/
def containsL (pat : List Char) : List Char → Bool
  | [] => startsWithL [] pat
  | a :: t => startsWithL (a :: t) pat || containsL pat t

/-- String wrapper for `includes`. -/
def containsS (s pat : String) : Bool := containsL pat.data s.data

/-- String wrapper for `toLowerCase`. -/
def toLowerS (s : String) : String := String.mk (toLowerL s.data)

/-- String wrapper for `trim`. -/
def jsTrim (s : String) : String := String.mk (jsTrimL s.data)

/-- First `n` characters, model of `String.prototype.slice(0, n)`. -/
def takeS (n : Nat) (s : String) : String := String.mk (s.data.take n)

/-! ## Percent decoding (model of the `decodeURIComponent` builtin) -/

/-- Value of a hexadecimal digit, if any. -/
def hexVal (c : Char) : Option Nat :=
  if 48 ≤ c.toNat ∧ c.toNat ≤ 57 then some (c.toNat - 48)
  else if 65 ≤ c.toNat ∧ c.toNat ≤ 70 then some (c.toNat - 55)
  else if 97 ≤ c.toNat ∧ c.toNat ≤ 102 then some (c.toNat - 87)
  else none

/-- UTF-8 encoding of one code point (used to re-encode unescaped
characters so the whole input is decoded uniformly). -/
def charUtf8Bytes (c : Char) : List Nat :=
  let n := c.toNat
  if n < 128 then [n]
  else if n < 2048 then [192 + n / 64, 128 + n % 64]
  else if n < 65536 then [224 + n / 4096, 128 + (n / 64) % 64, 128 + n % 64]
  else [240 + n / 262144, 128 + (n / 4096) % 64, 128 + (n / 64) % 64, 128 + n % 64]

/-- Turn a percent-escaped character list into bytes: `%XX` yields the
byte `XX` (failure on a malformed escape, as the builtin throws
`URIError`), any other character contributes its UTF-8 bytes. -/
def percentDecodeBytes : List Char → Option (List Nat)
  | [] => some []
  | '%' :: h1 :: h2 :: rest =>
    match hexVal h1, hexVal h2 with
    | some a, some b => (percentDecodeBytes rest).map (fun r => (16 * a + b) :: r)
    | _, _ => none
  | '%' :: _ => none
  | c :: rest => (percentDecodeBytes rest).map (fun r => charUtf8Bytes c ++ r)

/-- UTF-8 continuation byte. -/
def isCont (b : Nat) : Bool := 128 ≤ b && b < 192

/-- Strict UTF-8 decoding (failure on malformed input, as the
`decodeURIComponent` builtin throws `URIError`). -/
def utf8DecodeStrict : List Nat → Option (List Char)
  | [] => some []
  | b :: rest =>
    if b < 128 then (utf8DecodeStrict rest).map (fun r => Char.ofNat b :: r)
    else if b < 194 then none
    else if b < 224 then
      match rest with
      | b1 :: r =>
        if isCont b1 then
          (utf8DecodeStrict r).map (fun t => Char.ofNat ((b - 192) * 64 + (b1 - 128)) :: t)
        else none
      | [] => none
    else if b < 240 then
      match rest with
      | b1 :: b2 :: r =>
        if isCont b1 && isCont b2 then
          let cp := (b - 224) * 4096 + (b1 - 128) * 64 + (b2 - 128)
          if cp < 2048 ∨ (55296 ≤ cp ∧ cp < 57344) then none
          else (utf8DecodeStrict r).map (fun t => Char.ofNat cp :: t)
        else none
      | _ => none
    else if b < 245 then
      match rest with
      | b1 :: b2 :: b3 :: r =>
        if isCont b1 && isCont b2 && isCont b3 then
          let cp := (b - 240) * 262144 + (b1 - 128) * 4096 + (b2 - 128) * 64 + (b3 - 128)
          if cp < 65536 ∨ 1114112 ≤ cp then none
          else (utf8DecodeStrict r).map (fun t => Char.ofNat cp :: t)
        else none
      | _ => none
    else none

/-- Model of the `decodeURIComponent` builtin: percent-unescape to bytes,
then strict UTF-8 decoding; `none` models the thrown `URIError`. -/
def decodeURIComponentM (s : String) : Option String :=
  ((percentDecodeBytes s.data).bind utf8DecodeStrict).map String.mk

/-- Lenient UTF-8 decoding with U+FFFD replacement, model of the
`Buffer.prototype.toString('utf8')` builtin (line 165). -/
def utf8DecodeReplace : List Nat → List Char
  | [] => []
  | b :: rest =>
    if b < 128 then Char.ofNat b :: utf8DecodeReplace rest
    else if b < 194 then Char.ofNat 65533 :: utf8DecodeReplace rest
    else if b < 224 then
      match rest with
      | b1 :: r =>
        if isCont b1 then Char.ofNat ((b - 192) * 64 + (b1 - 128)) :: utf8DecodeReplace r
        else Char.ofNat 65533 :: utf8DecodeReplace (b1 :: r)
      | [] => [Char.ofNat 65533]
    else if b < 240 then
      match rest with
      | b1 :: b2 :: r =>
        if isCont b1 && isCont b2 then
          let cp := (b - 224) * 4096 + (b1 - 128) * 64 + (b2 - 128)
          if cp < 2048 ∨ (55296 ≤ cp ∧ cp < 57344) then Char.ofNat 65533 :: utf8DecodeReplace r
          else Char.ofNat cp :: utf8DecodeReplace r
        else Char.ofNat 65533 :: utf8DecodeReplace (b1 :: b2 :: r)
      | _ => [Char.ofNat 65533]
    else if b < 245 then
      match rest with
      | b1 :: b2 :: b3 :: r =>
        if isCont b1 && isCont b2 && isCont b3 then
          let cp := (b - 240) * 262144 + (b1 - 128) * 4096 + (b2 - 128) * 64 + (b3 - 128)
          if cp < 65536 ∨ 1114112 ≤ cp then Char.ofNat 65533 :: utf8DecodeReplace r
          else Char.ofNat cp :: utf8DecodeReplace r
        else Char.ofNat 65533 :: utf8DecodeReplace (b1 :: b2 :: b3 :: r)
      | _ => [Char.ofNat 65533]
    else Char.ofNat 65533 :: utf8DecodeReplace rest
termination_by l => l.length
decreasing_by all_goals simp [List.length_cons] <;> omega

/-! ## URL model (the WHATWG `new URL` builtin used at lines 82 and 106) -/

/-- Parsed URL record; the handler only reads `parsedUrl.pathname`. -/
structure URLRec where
  pathname : String
deriving DecidableEq, Repr

/-- ASCII letter. -/
def isAlphaC (c : Char) : Bool :=
  (65 ≤ c.toNat && c.toNat ≤ 90) || (97 ≤ c.toNat && c.toNat ≤ 122)

/-- Character allowed in a URL scheme after the first letter. -/
def isSchemeC (c : Char) : Bool :=
  isAlphaC c || (48 ≤ c.toNat && c.toNat ≤ 57) || c == '+' || c == '-' || c == '.'

/-- Split at the first colon: `some (scheme, rest)` or `none` if no colon. -/
def splitScheme : List Char → Option (List Char × List Char)
  | [] => none
  | c :: t =>
    if c == ':' then some ([], t)
    else
      match splitScheme t with
      | some (s, r) => some (c :: s, r)
      | none => none

/-- Path characters up to the query or fragment delimiter. -/
def takePath : List Char → List Char
  | [] => []
  | c :: t => if c == '?' || c == '#' then [] else c :: takePath t

/-- Skip an authority: everything before the first path, query or
fragment delimiter. -/
def dropToPath : List Char → List Char
  | [] => []
  | c :: t => if c == '/' || c == '?' || c == '#' then c :: t else dropToPath t

/-- Modelled from the spec: the WHATWG URL parser (the JS builtin
`new URL`, an external collaborator not in src/). The spec requires the
input to be "a syntactically valid absolute URL"; the model accepts a
well-formed scheme followed by an authority or opaque path and extracts
`pathname` (defaulting to the root path), and fails with the builtin's
`TypeError` message otherwise. Percent-encoding normalization of the
serialized pathname is not modelled. -/
def parseURL (s : String) : Except String URLRec :=
  match splitScheme s.data with
  | none => .error "Invalid URL"
  | some (scheme, rest) =>
    match scheme with
    | [] => .error "Invalid URL"
    | c0 :: cs =>
      if isAlphaC c0 && cs.all isSchemeC then
        match rest with
        | '/' :: '/' :: r2 =>
          match dropToPath r2 with
          | '/' :: p => .ok ⟨String.mk ('/' :: takePath p)⟩
          | _ => .ok ⟨"/"⟩
        | other => .ok ⟨String.mk (takePath other)⟩
      else .error "Invalid URL"

/-! ## Filename and extension detection (lines 88-91, 104-122) -/

/-- Last piece of the split list, `arr.pop() || ''` on a `split` result. -/
def lastPieceL (c : Char) (l : List Char) : List Char :=
  (splitOnCharL c l).getLastD []

/-- Lines 88-89: last path segment, percent-decoded, trimmed, CR/LF
stripped and trimmed again; `none` models the `URIError` thrown by
`decodeURIComponent`, which the outer catch turns into a 500. -/
def pathFilenameOpt (pathname : String) : Option String :=
  (decodeURIComponentM (String.mk (lastPieceL '/' pathname.data))).map
    (fun d => String.mk (jsTrimL (stripCRLF (jsTrimL d.data))))

/-- Lines 90-91: `(filename.split('.').pop() || '').toLowerCase().trim()`
then `replace(/[^a-z0-9]/g, '')`. -/
def extOfFilename (fn : String) : String :=
  String.mk (List.filter isLowerAlnum (jsTrimL (toLowerL (lastPieceL '.' fn.data))))

/-- Lines 119-122: infer the extension from the content-type when the
path gave none. -/
def inferFromCT (ct : String) : String :=
  if containsS ct "pdf" then "pdf"
  else if containsS ct "officedocument" || containsS ct "word" ||
          containsS ct "msword" || containsS ct "application/vnd" then "docx"
  else ""

/-- Raw bytes and headers of a successful axios response (the parts of
the response object the handler reads). `contentType` is the
case-insensitive `content-type` header lookup of line 116, defaulting to
the empty string; `responseUrl` is `response.request.res.responseUrl`. -/
structure FetchOk where
  data : List Nat
  contentType : String
  responseUrl : Option String
deriving DecidableEq, Repr

/-- Line 103: final URL after redirects, falling back to the request URL
(`response.config.url`) when redirect tracking is unavailable or empty. -/
def finalUrlOf (url : String) (r : FetchOk) : String :=
  match r.responseUrl with
  | some s => if s = "" then url else s
  | none => url

/-- Lines 104-114: when the original path gave no filename, re-derive
filename and extension from the final URL; a `new URL` or
`decodeURIComponent` failure there is swallowed (lines 111-113). -/
def refineFromFinal (fn0 ext0 finalUrl : String) : String × String :=
  if fn0 = "" ∧ finalUrl ≠ "" then
    match parseURL finalUrl with
    | .ok p =>
      match pathFilenameOpt p.pathname with
      | some fn => (fn, extOfFilename fn)
      | none => (fn0, ext0)
    | .error _ => (fn0, ext0)
  else (fn0, ext0)

/-- Lines 88-122 as one function of the original URL, the filename
derived from its path, and the response: the detected extension. The
response's body bytes are never consulted. -/
def extensionOfResponse (url fn0 : String) (r : FetchOk) : String :=
  let e := (refineFromFinal fn0 (extOfFilename fn0) (finalUrlOf url r)).2
  if e = "" then inferFromCT r.contentType else e

/-- The filename the same pass leaves behind (used in the 400 debug body). -/
def filenameOfResponse (url fn0 : String) (r : FetchOk) : String :=
  (refineFromFinal fn0 (extOfFilename fn0) (finalUrlOf url r)).1

/-! ## Fetch results and upstream-error bodies (lines 94-100, 156-198) -/

/-- Axios request configuration of the fetch issued at lines 94-100. -/
structure AxiosRequestConfig where
  method : String
  responseType : String
  timeoutMs : Nat
  maxRedirects : Nat
deriving DecidableEq, Repr

/-- The literal configuration object passed to axios (lines 94-100). -/
def extractFetchConfig : AxiosRequestConfig :=
  { method := "GET", responseType := "arraybuffer", timeoutMs := 30000, maxRedirects := 5 }

/-- Shape of `err.response.data` as the handler discriminates it
(lines 162-172): a string, a byte buffer, or anything else — the latter
carrying its `JSON.stringify` image, `none` when stringification throws. -/
inductive BodyVal where
  | str (s : String)
  | buf (b : List Nat)
  | other (stringified : Option String)
deriving DecidableEq, Repr

/-- An upstream HTTP error response (`err.response`): status, content-type
header and body. -/
structure FetchErrResp where
  status : Nat
  contentType : String
  body : BodyVal
deriving DecidableEq, Repr

/-- Outcome of the axios fetch: success, an upstream HTTP error carrying
`err.response` and `err.message`, or a network-level failure with no
response. -/
inductive FetchResult where
  | ok (r : FetchOk)
  | httpErr (e : FetchErrResp) (message : String)
  | netErr (message : String)
deriving DecidableEq, Repr

/-- Lines 160-172: `upstreamBodyPreview`, the first 200 characters of a
string body, the UTF-8 decoding of the first 200 bytes of a binary body
(`body.toString('utf8', 0, 200)`), or the first 200 characters of the
JSON-stringified body; `none` when stringification threw. -/
def bodyPreviewOf : BodyVal → Option String
  | .str s => some (takeS 200 s)
  | .buf b => some (String.mk (utf8DecodeReplace (b.take 200)))
  | .other j => j.map (takeS 200)

/-- The regex literal `exp`. -/
def expW : List Char := ['e', 'x', 'p']

/-- The regex literal `fail`. -/
def failW : List Char := ['f', 'a', 'i', 'l']

/-- The regex literal `expired`. -/
def expiredW : List Char := ['e', 'x', 'p', 'i', 'r', 'e', 'd']

/-- JS regex `/exp.*(fail|expired)/i` on an already-lowercased character
list: after some position carrying `exp`, a run of non-line-terminator
characters (the regex dot), then `fail` or `expired`. -/
def tailFind : List Char → Bool
  | [] => false
  | a :: t =>
    startsWithL (a :: t) failW || startsWithL (a :: t) expiredW ||
    (!lineTerm a && tailFind t)

/-- Search for the `exp` prefix of the regex match. -/
def expSearch : List Char → Bool
  | [] => false
  | a :: t => (startsWithL (a :: t) expW && tailFind t.tail.tail) || expSearch t

/-- Case-insensitive test of `/exp.*(fail|expired)/` (line 179), modelled
by matching the lowercase pattern on the lowercased string. -/
def jsRegexExpFail (s : String) : Bool := expSearch (toLowerL s.data)

/-- Lines 175-180: the signed-URL-expiry heuristic. -/
def isInvalidJwt (status : Nat) (preview : Option String) : Bool :=
  let previewLower := toLowerS (preview.getD "")
  status == 400 &&
    (containsS previewLower "invalidjwt" || containsS previewLower "\"exp\"" ||
     jsRegexExpFail (preview.getD ""))

/-! ## Responses of the /extract endpoint (response translator) -/

/-- Every response shape `/extract` can produce, with the fields the
source puts in each JSON body. -/
inductive ExtractResponse where
  | missingUrl
  | invalidUrl (message : String)
  | notReady (message : String)
  | unsupported (filename ext contentType finalUrl : String)
  | tokenInvalid (upstreamStatus : Nat) (upstreamContentType : String)
      (upstreamBodyPreview : Option String)
  | upstreamFailed (upstreamStatus : Nat) (upstreamContentType : String)
      (upstreamBodyPreview : Option String) (message : String)
  | extractionFailed (message : String)
  | success (text : String)
deriving DecidableEq, Repr

/-- HTTP status of each response (res.status calls of the source). -/
def statusOf : ExtractResponse → Nat
  | .missingUrl => 400
  | .invalidUrl _ => 400
  | .notReady _ => 503
  | .unsupported _ _ _ _ => 400
  | .tokenInvalid _ _ _ => 401
  | .upstreamFailed _ _ _ _ => 502
  | .extractionFailed _ => 500
  | .success _ => 200

/-- The `error` field of each JSON body (`none` for the 200 plain-text
response). -/
def errorOf : ExtractResponse → Option String
  | .missingUrl => some "Missing URL parameter"
  | .invalidUrl _ => some "Invalid URL parameter"
  | .notReady _ => some "PDF handler not ready"
  | .unsupported _ _ _ _ => some "Unsupported file type... Use .pdf or .docx"
  | .tokenInvalid _ _ _ => some "Upstream token invalid or expired"
  | .upstreamFailed _ _ _ _ => some "Upstream fetch failed"
  | .extractionFailed _ => some "Extraction failed"
  | .success _ => none

/-- The `suggestion` field, present only in the 401 body (line 188). -/
def suggestionOf : ExtractResponse → Option String
  | .tokenInvalid _ _ _ => some "Regenerate signed URL or refresh token"
  | _ => none

/-- Lines 156-198: translate an upstream HTTP error into the 401 or 502
response. -/
def classifyUpstreamError (e : FetchErrResp) (message : String) : ExtractResponse :=
  let preview := bodyPreviewOf e.body
  if isInvalidJwt e.status preview then .tokenInvalid e.status e.contentType preview
  else .upstreamFailed e.status e.contentType preview message

/-! ## PDF engine readiness (lines 126-137, 231-233) -/

/-- The 5000 ms bound of the on-demand initialization race (line 132). -/
def initTimeoutMs : Nat := 5000

/-- Message of the rejection the race produces when the bound elapses
(line 132). -/
def initTimeoutMsg : String := "pdfjs init timeout"

/-- Outcome of `Promise.race([initPdfjs(), timeout])`: `settled` is the
result of `initPdfjs()` if it settled within `initTimeoutMs`, `none`
otherwise. -/
def raceInit (settled : Option (Except String Unit)) : Except String Unit :=
  match settled with
  | none => .error initTimeoutMsg
  | some r => r

/-- Run an extraction collaborator; a rejection propagates to the outer
catch and becomes the 500 response (lines 201-204). -/
def runX (x : List Nat → Except String String) (d : List Nat) : ExtractResponse :=
  match x d with
  | .ok t => .success t
  | .error m => .extractionFailed m

/-- Lines 124-150: dispatch on the detected extension. For `pdf`, when
`pdfjsLib` is still null the on-demand initialization race runs first and
its failure yields the 503 body (lines 128-137). -/
def dispatch (fn ext ct finalUrl : String) (data : List Nat) (ready : Bool)
    (initSettled : Option (Except String Unit))
    (pdfX docxX : List Nat → Except String String) : ExtractResponse :=
  if ext = "pdf" then
    if !ready then
      match raceInit initSettled with
      | .error m => .notReady m
      | .ok _ => runX pdfX data
    else runX pdfX data
  else if ext = "docx" then runX docxX data
  else .unsupported fn ext ct finalUrl

/-- Lines 64-206: the whole `/extract` handler as a function of the `url`
query parameter, the fetch outcome and the engine state. Order of the
source: missing/empty parameter check, URL parsing, filename/extension
extraction (a `decodeURIComponent` throw reaches the outer catch as a
500), fetch, extension refinement and content-type fallback, dispatch. -/
def handleExtract (urlParam : Option String) (fetch : FetchResult) (ready : Bool)
    (initSettled : Option (Except String Unit))
    (pdfX docxX : List Nat → Except String String) : ExtractResponse :=
  match urlParam with
  | none => .missingUrl
  | some url =>
    if url = "" then .missingUrl
    else
      match parseURL url with
      | .error m => .invalidUrl m
      | .ok parsedUrl =>
        match pathFilenameOpt parsedUrl.pathname with
        | none => .extractionFailed "URI malformed"
        | some fn0 =>
          match fetch with
          | .netErr m => .extractionFailed m
          | .httpErr e m => classifyUpstreamError e m
          | .ok r =>
            dispatch (filenameOfResponse url fn0 r) (extensionOfResponse url fn0 r)
              r.contentType (finalUrlOf url r) r.data ready initSettled pdfX docxX

/-! ## PDF text extraction (extractPdf, lines 44-55) -/

/-- A positioned text run of a PDF page; the loop reads `item.str`. -/
structure TextItem where
  str : String
deriving DecidableEq, Repr

/-- A page is its ordered list of text items (`content.items`). -/
def PdfPage : Type := List TextItem

/-- Line 52 for one page: `strings.join(' ') + '\n'`. -/
def joinSep (sep : String) : List String → String
  | [] => ""
  | [s] => s
  | s :: r :: t => s ++ sep ++ joinSep sep (r :: t)

/-- Text contributed by one page: item strings joined with one space,
then one newline. -/
def pageText (p : PdfPage) : String :=
  joinSep " " (List.map TextItem.str p) ++ "\n"

/-- Lines 47-53: the accumulation loop over pages `i = 1 .. numPages`,
modelled as a fold over the 0-based page indices in order. -/
def extractPdf (doc : List PdfPage) : String :=
  (List.range doc.length).foldl (fun text i => text ++ pageText (doc.getD i [])) ""

/-- The concatenation the spec describes: page texts in page order. -/
def concatPages : List PdfPage → String
  | [] => ""
  | p :: t => pageText p ++ concatPages t

/-! ## PDF engine initialization calls (lines 128-133 and 231) -/

/-- Events that can spawn a `pdfjs` engine initialization: process start
(line 231 fires `initPdfjs()` in the background) and an `/extract`
request for a PDF, recording whether `pdfjsLib` was already set when the
request reached the guard of line 128. -/
inductive ServerEvent where
  | processStart
  | extractRequest (pdfLibSet : Bool)
deriving DecidableEq, Repr

/-- Whether the event invokes `initPdfjs()`: process start always does;
a request does whenever it observes `pdfjsLib` still null (line 128),
there being no promise caching or single-flight guard in `initPdfjs`. -/
def initSpawned : ServerEvent → Bool
  | .processStart => true
  | .extractRequest libSet => !libSet

/-- Number of independent `initPdfjs()` invocations a sequence of events
triggers. -/
def initSpawnCount (evs : List ServerEvent) : Nat :=
  (evs.filter initSpawned).length

/-! ## Specification-side predicates (stated from the spec's words) -/

/-- The spec's "contains": `pat` occurs contiguously inside `s`. -/
def ContainsSub (s pat : String) : Prop :=
  ∃ u v : List Char, s.data = u ++ pat.data ++ v

/-- The spec's "matches a case-insensitive pattern resembling
exp...fail / exp...expired": in the lowercased string, `exp` followed by
a dot-matchable run followed by `fail` or `expired`. -/
def MatchesExpFail (s : String) : Prop :=
  ∃ u m w v, toLowerL s.data = u ++ expW ++ m ++ w ++ v ∧
    (w = failW ∨ w = expiredW) ∧ ∀ c ∈ m, lineTerm c = false

/-- The spec's signed-URL-expiry condition: status is exactly 400 and the
lowercased body preview contains `invalidjwt`, or contains the literal
substring `"exp"`, or matches the expiry regex. -/
def SignedUrlExpiryCond (status : Nat) (preview : Option String) : Prop :=
  status = 400 ∧
    (ContainsSub (toLowerS (preview.getD "")) "invalidjwt" ∨
     ContainsSub (toLowerS (preview.getD "")) "\"exp\"" ∨
     MatchesExpFail (preview.getD ""))

/-- A PDF collaborator that extracts successfully (concrete instantiation
for evaluations). -/
def pdfOkX : List Nat → Except String String := fun _ => .ok "PDF TEXT"

/-- A DOCX collaborator that extracts successfully (concrete
instantiation for evaluations). -/
def docxOkX : List Nat → Except String String := fun _ => .ok "DOCX TEXT"

/-! ## Reflection lemmas: the boolean string tests against the spec's
existential characterizations -/

theorem startsWithL_iff (pat : List Char) : ∀ l : List Char,
    startsWithL l pat = true ↔ ∃ t, l = pat ++ t := by
  induction pat with
  | nil =>
    intro l
    cases l <;> simp [startsWithL]
  | cons b bs ih =>
    intro l
    cases l with
    | nil => simp [startsWithL]
    | cons a as =>
      simp only [startsWithL, Bool.and_eq_true, beq_iff_eq, ih, List.cons_append,
        List.cons.injEq]
      constructor
      · rintro ⟨rfl, t, rfl⟩
        exact ⟨t, rfl, rfl⟩
      · rintro ⟨t, rfl, rfl⟩
        exact ⟨rfl, t, rfl⟩

theorem containsL_iff (pat : List Char) : ∀ l : List Char,
    containsL pat l = true ↔ ∃ u v, l = u ++ pat ++ v := by
  intro l
  induction l with
  | nil =>
    simp only [containsL, startsWithL_iff]
    constructor
    · rintro ⟨t, ht⟩
      exact ⟨[], t, ht⟩
    · rintro ⟨u, v, h⟩
      rcases List.append_eq_nil.mp h.symm with ⟨h1, rfl⟩
      rcases List.append_eq_nil.mp h1 with ⟨rfl, rfl⟩
      exact ⟨[], rfl⟩
  | cons a t ih =>
    simp only [containsL, Bool.or_eq_true, startsWithL_iff, ih]
    constructor
    · rintro (⟨v, hv⟩ | ⟨u, v, hv⟩)
      · exact ⟨[], v, by simpa using hv⟩
      · exact ⟨a :: u, v, by simp [hv]⟩
    · rintro ⟨u, v, h⟩
      cases u with
      | nil =>
        left
        exact ⟨v, by simpa using h⟩
      | cons x u2 =>
        right
        simp only [List.cons_append, List.cons.injEq] at h
        exact ⟨u2, v, h.2⟩

theorem containsS_iff (s pat : String) : containsS s pat = true ↔ ContainsSub s pat :=
  containsL_iff pat.data s.data

theorem tailFind_iff : ∀ l : List Char,
    tailFind l = true ↔
      ∃ m w v, l = m ++ w ++ v ∧ (w = failW ∨ w = expiredW) ∧
        ∀ c ∈ m, lineTerm c = false := by
  intro l
  induction l with
  | nil =>
    simp only [tailFind]
    constructor
    · intro h
      exact absurd h (by simp)
    · rintro ⟨m, w, v, h, hw, _⟩
      rcases List.append_eq_nil.mp (List.append_eq_nil.mp h.symm).1 with ⟨-, hw2⟩
      rcases hw with rfl | rfl <;> simp [failW, expiredW] at hw2
  | cons a t ih =>
    simp only [tailFind, Bool.or_eq_true, Bool.and_eq_true, Bool.not_eq_true', ih,
      startsWithL_iff]
    constructor
    · rintro ((⟨v, hv⟩ | ⟨v, hv⟩) | ⟨ha, m, w, v, hv, hw, hm⟩)
      · exact ⟨[], failW, v, by simpa using hv, Or.inl rfl, by simp⟩
      · exact ⟨[], expiredW, v, by simpa using hv, Or.inr rfl, by simp⟩
      · refine ⟨a :: m, w, v, by simp [hv], hw, ?_⟩
        intro c hc
        rcases List.mem_cons.mp hc with rfl | hc
        · exact ha
        · exact hm c hc
    · rintro ⟨m, w, v, hv, hw, hm⟩
      cases m with
      | nil =>
        left
        rcases hw with rfl | rfl
        · exact Or.inl ⟨v, by simpa using hv⟩
        · exact Or.inr ⟨v, by simpa using hv⟩
      | cons x m2 =>
        right
        simp only [List.cons_append, List.cons.injEq] at hv
        rcases hv with ⟨rfl, hv⟩
        exact ⟨hm a (by simp), m2, w, v, hv, hw, fun c hc => hm c (by simp [hc])⟩

theorem expSearch_iff : ∀ l : List Char,
    expSearch l = true ↔
      ∃ u m w v, l = u ++ expW ++ m ++ w ++ v ∧ (w = failW ∨ w = expiredW) ∧
        ∀ c ∈ m, lineTerm c = false := by
  intro l
  induction l with
  | nil =>
    simp only [expSearch]
    constructor
    · intro h
      exact absurd h (by simp)
    · rintro ⟨u, m, w, v, h, -, -⟩
      have := (List.append_eq_nil.mp
        (List.append_eq_nil.mp (List.append_eq_nil.mp (List.append_eq_nil.mp h.symm).1).1).1).2
      simp [expW] at this
  | cons a t ih =>
    simp only [expSearch, Bool.or_eq_true, Bool.and_eq_true, ih, startsWithL_iff]
    constructor
    · rintro (⟨⟨r, hr⟩, htail⟩ | ⟨u, m, w, v, hv, hw, hm⟩)
      · have hr2 : a :: t = 'e' :: 'x' :: 'p' :: r := by simpa [expW] using hr
        simp only [List.cons.injEq] at hr2
        rcases hr2 with ⟨rfl, rfl⟩
        rcases (tailFind_iff r).mp (by simpa using htail) with ⟨m, w, v, hv, hw, hm⟩
        exact ⟨[], m, w, v, by simp [expW, hv], hw, hm⟩
      · exact ⟨a :: u, m, w, v, by simp [hv], hw, hm⟩
    · rintro ⟨u, m, w, v, hv, hw, hm⟩
      cases u with
      | nil =>
        left
        simp only [List.nil_append, expW, List.cons_append, List.cons.injEq] at hv
        rcases hv with ⟨rfl, rfl⟩
        refine ⟨⟨m ++ w ++ v, by simp [expW]⟩, ?_⟩
        show tailFind (m ++ w ++ v) = true
        exact (tailFind_iff _).mpr ⟨m, w, v, by simp, hw, hm⟩
      | cons x u2 =>
        right
        simp only [List.cons_append, List.cons.injEq] at hv
        rcases hv with ⟨rfl, hv⟩
        exact ⟨u2, m, w, v, hv, hw, hm⟩

theorem jsRegexExpFail_iff (s : String) : jsRegexExpFail s = true ↔ MatchesExpFail s :=
  expSearch_iff (toLowerL s.data)

theorem isInvalidJwt_iff (status : Nat) (preview : Option String) :
    isInvalidJwt status preview = true ↔ SignedUrlExpiryCond status preview := by
  simp only [isInvalidJwt, SignedUrlExpiryCond, Bool.and_eq_true, Bool.or_eq_true,
    beq_iff_eq, containsS_iff, jsRegexExpFail_iff, or_assoc]

/-! ## Lemmas for the page-concatenation loop -/

theorem getD_append_left {α : Type} (l r : List α) (d : α) :
    ∀ i, i < l.length → (l ++ r).getD i d = l.getD i d := by
  induction l with
  | nil => intro i h; exact absurd h (by simp)
  | cons a t ih =>
    intro i h
    cases i with
    | zero => rfl
    | succ j => exact ih j (by simpa using h)

theorem getD_append_length {α : Type} (l : List α) (p d : α) :
    (l ++ [p]).getD l.length d = p := by
  induction l with
  | nil => rfl
  | cons a t ih => simp [ih]

theorem concatPages_append (l : List PdfPage) (p : PdfPage) :
    concatPages (l ++ [p]) = concatPages l ++ pageText p := by
  induction l with
  | nil =>
    show pageText p ++ concatPages [] = concatPages [] ++ pageText p
    rw [show concatPages [] = "" from rfl, String.append_empty, String.empty_append]
  | cons q t ih =>
    show pageText q ++ concatPages (t ++ [p]) = pageText q ++ concatPages t ++ pageText p
    rw [ih, String.append_assoc]

theorem extractPdf_fold (doc : List PdfPage) : ∀ init : String,
    (List.range doc.length).foldl (fun text i => text ++ pageText (doc.getD i [])) init =
      init ++ concatPages doc := by
  induction doc using List.reverseRecOn with
  | nil =>
    intro init
    show init = init ++ concatPages []
    rw [show concatPages [] = "" from rfl, String.append_empty]
  | append_singleton l p ih =>
    intro init
    rw [List.length_append, List.length_singleton, List.range_succ, List.foldl_append]
    rw [List.foldl_ext (fun text i => text ++ pageText ((l ++ [p]).getD i []))
      (fun text i => text ++ pageText (l.getD i [])) init
      (fun acc i hi => by
        show acc ++ pageText ((l ++ [p]).getD i []) = acc ++ pageText (l.getD i [])
        rw [getD_append_left l [p] [] i (List.mem_range.mp hi)])]
    rw [ih init]
    show init ++ concatPages l ++ pageText ((l ++ [p]).getD l.length []) =
      init ++ concatPages (l ++ [p])
    rw [getD_append_length, concatPages_append, String.append_assoc]

/-! ## Claim theorems -/

/-- C1. The claim states the detected extension is the substring after
the last `.` of the sanitized filename — lowercased, non-`[a-z0-9]`
stripped — and the EMPTY string for a filename containing no `.`.
The code (line 90, `filename.split('.').pop()`) returns the WHOLE
filename when no `.` is present: for the URL
`https://example.com/README` the filename is `README`, which contains no
dot, yet the detected extension is `readme`, not `""`; consequently the
whole request is rejected as unsupported even when the upstream
content-type is `application/pdf`, although the spec's content-type
fallback was supposed to apply. This theorem evaluates the code at that
failing input. -/
theorem c1_dotless_filename_eval :
    parseURL "https://example.com/README" = .ok ⟨"/README"⟩ ∧
    pathFilenameOpt "/README" = some "README" ∧
    extOfFilename "README" = "readme" ∧
    handleExtract (some "https://example.com/README")
        (.ok ⟨[37, 80, 68, 70], "application/pdf", none⟩) true none pdfOkX docxOkX =
      .unsupported "README" "readme" "application/pdf" "https://example.com/README" := by
  refine ⟨rfl, by decide, by decide, by decide⟩

/-- C3. For every successfully loaded PDF document, the extracted text is
the concatenation, over the pages in page order, of the page's item
strings joined with a single space followed by one newline; a 3-page
document yields exactly the three newline-terminated page segments in
original order. -/
theorem c3_pdf_page_concatenation (doc : List PdfPage) :
    extractPdf doc = concatPages doc ∧
    (doc.length = 3 →
      extractPdf doc =
        pageText (doc.getD 0 []) ++ (pageText (doc.getD 1 []) ++ pageText (doc.getD 2 []))) := by
  have hmain : extractPdf doc = concatPages doc := by
    show (List.range doc.length).foldl
        (fun text i => text ++ pageText (doc.getD i [])) "" = concatPages doc
    rw [extractPdf_fold doc "", String.empty_append]
  refine ⟨hmain, fun h3 => ?_⟩
  rcases List.length_eq_three.mp h3 with ⟨p, q, r, rfl⟩
  rw [hmain]
  show pageText p ++ (pageText q ++ (pageText r ++ "")) =
    pageText p ++ (pageText q ++ pageText r)
  rw [String.append_empty]

/-- Witness for C3 at a concrete 3-page document. -/
theorem c3_pdf_page_concatenation_witness :
    extractPdf [[⟨"a"⟩, ⟨"b"⟩], [⟨"c"⟩], []] =
      pageText [⟨"a"⟩, ⟨"b"⟩] ++ (pageText [⟨"c"⟩] ++ pageText []) :=
  (c3_pdf_page_concatenation [[⟨"a"⟩, ⟨"b"⟩], [⟨"c"⟩], []]).2 (by decide)

/-- C4. The detected extension is a deterministic function of the URL
path (original and final) and the content-type header only: two fetch
responses agreeing on final URL and content-type but with arbitrarily
different body bytes produce the same extension. -/
theorem c4_extension_body_independence (u1 u2 fn1 fn2 : String) (r1 r2 : FetchOk)
    (hfn : fn1 = fn2) (hfin : finalUrlOf u1 r1 = finalUrlOf u2 r2)
    (hct : r1.contentType = r2.contentType) :
    extensionOfResponse u1 fn1 r1 = extensionOfResponse u2 fn2 r2 := by
  simp only [extensionOfResponse]
  rw [hfn, hfin, hct]

/-- Witness for C4: same path and content-type, different body bytes. -/
theorem c4_extension_body_independence_witness :
    extensionOfResponse "https://h/a.pdf" "a.pdf" ⟨[1, 2, 3], "application/pdf", none⟩ =
      extensionOfResponse "https://h/a.pdf" "a.pdf" ⟨[9, 9], "application/pdf", none⟩ ∧
    extensionOfResponse "https://h/a.pdf" "a.pdf" ⟨[1, 2, 3], "application/pdf", none⟩ = "pdf" :=
  ⟨c4_extension_body_independence "https://h/a.pdf" "https://h/a.pdf" "a.pdf" "a.pdf"
      ⟨[1, 2, 3], "application/pdf", none⟩ ⟨[9, 9], "application/pdf", none⟩ rfl rfl rfl,
    by decide⟩

/-- C6. A PDF request arriving while the engine is not yet loaded runs the
on-demand initialization race bounded by 5000 ms; if the race does not
complete in time (or the initialization rejects) the request fails with
the 503 `PDF handler not ready` body, whose status and error field differ
from the 500 `Extraction failed` response; if the on-demand retry
succeeds, extraction proceeds as if the engine had been ready. -/
theorem c6_pdf_engine_not_ready (fn ct furl : String) (data : List Nat)
    (pdfX docxX : List Nat → Except String String) (m m2 : String) :
    initTimeoutMs = 5000 ∧
    raceInit none = .error initTimeoutMsg ∧
    dispatch fn "pdf" ct furl data false none pdfX docxX = .notReady initTimeoutMsg ∧
    dispatch fn "pdf" ct furl data false (some (.error m)) pdfX docxX = .notReady m ∧
    statusOf (.notReady m) = 503 ∧
    errorOf (.notReady m) = some "PDF handler not ready" ∧
    statusOf (.extractionFailed m2) = 500 ∧
    errorOf (.extractionFailed m2) = some "Extraction failed" ∧
    dispatch fn "pdf" ct furl data false (some (.ok ())) pdfX docxX =
      dispatch fn "pdf" ct furl data true (some (.ok ())) pdfX docxX := by
  refine ⟨rfl, rfl, ?_, ?_, rfl, rfl, rfl, rfl, ?_⟩ <;> simp [dispatch, raceInit]

/-- C8. The fetch issued by /extract is a GET with raw-byte
(`arraybuffer`) response body, a 30-second timeout and at most 5 redirect
hops; the upstream body preview is the first 200 characters of a string
body, the UTF-8 decoding of the first 200 bytes of a binary body, and the
first 200 characters of the JSON-stringified form otherwise. -/
theorem c8_fetch_config_and_preview (s : String) (b : List Nat) (j : Option String) :
    extractFetchConfig.method = "GET" ∧
    extractFetchConfig.responseType = "arraybuffer" ∧
    extractFetchConfig.timeoutMs = 30 * 1000 ∧
    extractFetchConfig.maxRedirects = 5 ∧
    bodyPreviewOf (.str s) = some (takeS 200 s) ∧
    (takeS 200 s).data.length ≤ 200 ∧
    bodyPreviewOf (.buf b) = some (String.mk (utf8DecodeReplace (b.take 200))) ∧
    bodyPreviewOf (.other j) = j.map (takeS 200) := by
  refine ⟨rfl, rfl, rfl, rfl, rfl, ?_, rfl, rfl⟩
  show (s.data.take 200).length ≤ 200
  rw [List.length_take]
  exact Nat.min_le_left 200 s.data.length

/-- C9. The claim (and spec sections 5 and 9) say concurrent PDF requests
arriving before the first engine initialization completes share one
in-flight initialization. The code has no promise caching or
single-flight guard: line 231 fires `initPdfjs()` at start-up, and every
request that still observes `pdfjsLib` null (line 128) fires its own
`initPdfjs()` (line 131). This theorem evaluates the model at the failing
scenario: with two requests arriving before the background import has
assigned `pdfjsLib`, each of the two requests spawns an initialization
and three independent initializations run in total. -/
theorem c9_duplicate_init_eval :
    initSpawned (.extractRequest false) = true ∧
    initSpawnCount [.processStart, .extractRequest false, .extractRequest false] = 3 ∧
    2 ≤ initSpawnCount [.extractRequest false, .extractRequest false] := by
  refine ⟨rfl, rfl, by decide⟩

/-- C10. In the content-type fallback the `pdf` substring test runs
before the docx markers: a content-type containing `pdf` together with
any docx marker still maps to `pdf`. -/
theorem c10_pdf_priority_over_docx (ct : String)
    (hpdf : ContainsSub ct "pdf")
    (_hdocx : ContainsSub ct "officedocument" ∨ ContainsSub ct "word" ∨
      ContainsSub ct "msword" ∨ ContainsSub ct "application/vnd") :
    inferFromCT ct = "pdf" := by
  have hb : containsS ct "pdf" = true := (containsS_iff ct "pdf").mpr hpdf
  unfold inferFromCT
  rw [hb]
  rfl

/-- Witness for C10 at `application/vnd.foo+pdf`, which contains both
`pdf` and the docx marker `application/vnd`. -/
theorem c10_pdf_priority_over_docx_witness :
    inferFromCT "application/vnd.foo+pdf" = "pdf" :=
  c10_pdf_priority_over_docx "application/vnd.foo+pdf"
    ⟨"application/vnd.foo+".data, [], by decide⟩
    (Or.inr (Or.inr (Or.inr ⟨[], ".foo+pdf".data, by decide⟩)))

/-- C5. When the extension derived from the URL path (after the final-URL
refinement) is empty, the content-type decides: containing `pdf` maps to
`pdf`; otherwise containing one of the docx markers maps to `docx`;
otherwise the extension stays empty. -/
theorem c5_content_type_fallback (url fn0 : String) (r : FetchOk)
    (h : (refineFromFinal fn0 (extOfFilename fn0) (finalUrlOf url r)).2 = "") :
    (ContainsSub r.contentType "pdf" → extensionOfResponse url fn0 r = "pdf") ∧
    (¬ ContainsSub r.contentType "pdf" →
      (ContainsSub r.contentType "officedocument" ∨ ContainsSub r.contentType "word" ∨
       ContainsSub r.contentType "msword" ∨ ContainsSub r.contentType "application/vnd") →
      extensionOfResponse url fn0 r = "docx") ∧
    (¬ ContainsSub r.contentType "pdf" → ¬ ContainsSub r.contentType "officedocument" →
     ¬ ContainsSub r.contentType "word" → ¬ ContainsSub r.contentType "msword" →
     ¬ ContainsSub r.contentType "application/vnd" →
      extensionOfResponse url fn0 r = "") := by
  have hx : extensionOfResponse url fn0 r = inferFromCT r.contentType := by
    simp only [extensionOfResponse, h]
    rw [if_pos trivial]
  have hneg : ∀ pat : String, ¬ ContainsSub r.contentType pat →
      containsS r.contentType pat = false := by
    intro pat hn
    cases hb : containsS r.contentType pat
    · rfl
    · exact absurd ((containsS_iff _ _).mp hb) hn
  refine ⟨?_, ?_, ?_⟩
  · intro hp
    rw [hx]
    simp [inferFromCT, (containsS_iff _ _).mpr hp]
  · intro hnp hd
    rw [hx]
    have hb : containsS r.contentType "officedocument" = true ∨
        containsS r.contentType "word" = true ∨ containsS r.contentType "msword" = true ∨
        containsS r.contentType "application/vnd" = true := by
      rcases hd with h1 | h1 | h1 | h1
      · exact Or.inl ((containsS_iff _ _).mpr h1)
      · exact Or.inr (Or.inl ((containsS_iff _ _).mpr h1))
      · exact Or.inr (Or.inr (Or.inl ((containsS_iff _ _).mpr h1)))
      · exact Or.inr (Or.inr (Or.inr ((containsS_iff _ _).mpr h1)))
    rcases hb with h1 | h1 | h1 | h1 <;> simp [inferFromCT, hneg _ hnp, h1]
  · intro h1 h2 h3 h4 h5
    rw [hx]
    simp [inferFromCT, hneg _ h1, hneg _ h2, hneg _ h3, hneg _ h4, hneg _ h5]

/-- Witness for C5: extensionless path with `application/pdf`
content-type maps to `pdf`. -/
theorem c5_content_type_fallback_witness :
    extensionOfResponse "https://h/" "" ⟨[1], "application/pdf", none⟩ = "pdf" :=
  (c5_content_type_fallback "https://h/" "" ⟨[1], "application/pdf", none⟩ (by decide)).1
    ⟨"application/".data, [], by decide⟩

/-- C7 counterexample. The claim says every present but syntactically
invalid `url` yields the 400 `Invalid URL parameter` error. A present but
EMPTY `url` parameter is not a valid absolute URL, yet the guard
`if (!url)` (line 68) treats the empty string as missing and answers with
the `Missing URL parameter` body instead. -/
theorem c7_present_empty_url_counterexample :
    parseURL "" = .error "Invalid URL" ∧
    handleExtract (some "") (.netErr "no fetch performed") true none pdfOkX docxOkX =
      .missingUrl ∧
    errorOf .missingUrl = some "Missing URL parameter" ∧
    errorOf .missingUrl ≠ some "Invalid URL parameter" := by
  refine ⟨rfl, by decide, rfl, by decide⟩

/-- C7 as amended: a present, NON-EMPTY `url` that does not parse as an
absolute URL yields the 400 `Invalid URL parameter` body (the handler
returns before any fetch, so this condition never produces a 500), while
a missing or empty `url` yields the 400 `Missing URL parameter` body. -/
theorem c7_url_validation_amended (u m : String) (f : FetchResult) (ready : Bool)
    (settled : Option (Except String Unit)) (pdfX docxX : List Nat → Except String String)
    (hu : u ≠ "") (hp : parseURL u = .error m) :
    handleExtract (some u) f ready settled pdfX docxX = .invalidUrl m ∧
    statusOf (.invalidUrl m) = 400 ∧
    errorOf (.invalidUrl m) = some "Invalid URL parameter" ∧
    handleExtract none f ready settled pdfX docxX = .missingUrl ∧
    handleExtract (some "") f ready settled pdfX docxX = .missingUrl ∧
    statusOf .missingUrl = 400 ∧
    errorOf .missingUrl = some "Missing URL parameter" := by
  refine ⟨?_, rfl, rfl, rfl, ?_, rfl, rfl⟩
  · simp only [handleExtract, if_neg hu, hp]
  · simp [handleExtract]

/-- Witness for C7 at the spec's example input `"not a url"`. -/
theorem c7_url_validation_amended_witness :
    handleExtract (some "not a url") (.netErr "no fetch performed") true none pdfOkX docxOkX =
      .invalidUrl "Invalid URL" ∧
    statusOf (.invalidUrl "Invalid URL") = 400 :=
  ⟨(c7_url_validation_amended "not a url" "Invalid URL" (.netErr "no fetch performed") true
      none pdfOkX docxOkX (by decide) rfl).1,
   (c7_url_validation_amended "not a url" "Invalid URL" (.netErr "no fetch performed") true
      none pdfOkX docxOkX (by decide) rfl).2.1⟩

/-- C2. For an upstream HTTP error reaching the handler, the response is
401 with a `suggestion` field exactly when the status is 400 and the
lowercased body preview contains `invalidjwt`, or contains `"exp"`, or
matches the case-insensitive pattern `exp.*(fail|expired)`; every other
upstream HTTP error yields the 502 `Upstream fetch failed` body. -/
theorem c2_upstream_error_classification (u : String) (pu : URLRec) (fn0 : String)
    (st : Nat) (ct : String) (body : BodyVal) (msg : String) (ready : Bool)
    (settled : Option (Except String Unit)) (pdfX docxX : List Nat → Except String String)
    (hu : u ≠ "") (hp : parseURL u = .ok pu) (hf : pathFilenameOpt pu.pathname = some fn0) :
    ((statusOf (handleExtract (some u) (.httpErr ⟨st, ct, body⟩ msg) ready settled pdfX docxX) =
        401 ∧
      suggestionOf (handleExtract (some u) (.httpErr ⟨st, ct, body⟩ msg) ready settled pdfX docxX)
        ≠ none) ↔
      SignedUrlExpiryCond st (bodyPreviewOf body)) ∧
    (¬ SignedUrlExpiryCond st (bodyPreviewOf body) →
      handleExtract (some u) (.httpErr ⟨st, ct, body⟩ msg) ready settled pdfX docxX =
        .upstreamFailed st ct (bodyPreviewOf body) msg ∧
      statusOf (.upstreamFailed st ct (bodyPreviewOf body) msg) = 502 ∧
      errorOf (.upstreamFailed st ct (bodyPreviewOf body) msg) = some "Upstream fetch failed") := by
  have hred : handleExtract (some u) (.httpErr ⟨st, ct, body⟩ msg) ready settled pdfX docxX =
      classifyUpstreamError ⟨st, ct, body⟩ msg := by
    simp only [handleExtract, if_neg hu, hp, hf]
  rw [hred]
  show ((statusOf (classifyUpstreamError ⟨st, ct, body⟩ msg) = 401 ∧
      suggestionOf (classifyUpstreamError ⟨st, ct, body⟩ msg) ≠ none) ↔
      SignedUrlExpiryCond st (bodyPreviewOf body)) ∧ _
  by_cases hj : isInvalidJwt st (bodyPreviewOf body) = true
  · have hc : classifyUpstreamError ⟨st, ct, body⟩ msg =
        .tokenInvalid st ct (bodyPreviewOf body) := by
      simp only [classifyUpstreamError, hj, if_true]
    rw [hc]
    refine ⟨⟨fun _ => (isInvalidJwt_iff st _).mp hj, fun _ => ⟨rfl, by simp [suggestionOf]⟩⟩,
      fun hn => absurd ((isInvalidJwt_iff st _).mp hj) hn⟩
  · have hjf : isInvalidJwt st (bodyPreviewOf body) = false := Bool.eq_false_iff.mpr hj
    have hc : classifyUpstreamError ⟨st, ct, body⟩ msg =
        .upstreamFailed st ct (bodyPreviewOf body) msg := by
      simp only [classifyUpstreamError, hjf, Bool.false_eq_true, if_false]
    rw [hc]
    refine ⟨⟨fun hcon => ?_, fun hcond => absurd ((isInvalidJwt_iff st _).mpr hcond) hj⟩,
      fun _ => ⟨rfl, rfl, rfl⟩⟩
    exact absurd hcon.1 (by simp [statusOf])

/-- Witness for C2 at a 400 upstream error whose body mentions
InvalidJWT: the handler answers 401 with the suggestion field. -/
theorem c2_upstream_error_classification_witness :
    statusOf (handleExtract (some "https://h/x.pdf")
        (.httpErr ⟨400, "application/json", .str "error: InvalidJWT"⟩ "Request failed") true
        none pdfOkX docxOkX) = 401 ∧
    suggestionOf (handleExtract (some "https://h/x.pdf")
        (.httpErr ⟨400, "application/json", .str "error: InvalidJWT"⟩ "Request failed") true
        none pdfOkX docxOkX) ≠ none :=
  ((c2_upstream_error_classification "https://h/x.pdf" ⟨"/x.pdf"⟩ "x.pdf" 400
      "application/json" (.str "error: InvalidJWT") "Request failed" true none pdfOkX docxOkX
      (by decide) rfl (by decide)).1).mpr
    ⟨rfl, Or.inl ⟨"error: ".data, [], by decide⟩⟩

end Pakajo
